import Mathlib

/-!
Verification of the physics core of a 2D gravity-and-collisions particle
demo (src/main.cpp).  The per-frame physics step is embedded over the real
numbers: a gravity pass accumulating softened inverse-square accelerations
into an array before any velocity is mutated, a collision pass over
ascending index pairs applying an elastic impulse along the contact normal
plus a positional overlap correction, and a final explicit-Euler position
integration.
-/

namespace GravitySim

/-- 2D vector, as in glm::vec2 but over the reals. -/
abbrev Vec2 : Type := ℝ × ℝ

/-- glm::dot for 2D vectors. -/
def dot (a b : Vec2) : ℝ := a.1 * b.1 + a.2 * b.2

/-- A particle: position, velocity, mass (struct Particle in main.cpp). -/
structure Particle where
  pos : Vec2
  vel : Vec2
  mass : ℝ

instance : Inhabited Particle := ⟨⟨(0, 0), (0, 0), 0⟩⟩

/-- const float G = 1.0f. -/
noncomputable def G : ℝ := 1

/-- const float SOFTENING = 0.01f. -/
noncomputable def SOFTENING : ℝ := 0.01

/-- const float RADIUS_SCALE = 0.02f. -/
noncomputable def RADIUS_SCALE : ℝ := 0.02

/-- float getRadius(float mass) { return mass * RADIUS_SCALE; } -/
noncomputable def getRadius (mass : ℝ) : ℝ := mass * RADIUS_SCALE

/-- Indexing into the particle sequence (particles[i]). -/
def getP (ps : List Particle) (i : ℕ) : Particle := ps.getD i default

/-- One inner-loop iteration of the gravity pass: the acceleration
contribution of particle q to particle p (main.cpp lines 120-125). -/
noncomputable def gravAccContrib (p q : Particle) : Vec2 :=
  let diff : Vec2 := q.pos - p.pos
  let distSq := dot diff diff + SOFTENING
  let dist := Real.sqrt distSq
  let force := G * p.mass * q.mass / distSq
  (force / p.mass) • (dist⁻¹ • diff)

/-- The acceleration acc[i] computed by running the inner j-loop over the
indices in the list `order`, skipping j == i (main.cpp lines 116-127).
The code uses order = List.range ps.length. -/
noncomputable def gravAccWith (ps : List Particle) (order : List ℕ) (i : ℕ) : Vec2 :=
  order.foldl
    (fun a j => if j = i then a else a + gravAccContrib (getP ps i) (getP ps j)) 0

/-- acc[i] as computed by the code: inner loop over j = 0, ..., n-1. -/
noncomputable def gravAcc (ps : List Particle) (i : ℕ) : Vec2 :=
  gravAccWith ps (List.range ps.length) i

/-- Gravity pass with an explicit inner-loop order: all accelerations are
computed from the pre-update snapshot `ps`, then velocity[i] += acc[i]*dt
(main.cpp lines 114-132). -/
noncomputable def applyGravityWith (ps : List Particle) (order : List ℕ) (dt : ℝ) :
    List Particle :=
  (List.range ps.length).map fun i =>
    let p := getP ps i
    { p with vel := p.vel + dt • gravAccWith ps order i }

/-- The gravity pass as the code runs it. -/
noncomputable def applyGravity (ps : List Particle) (dt : ℝ) : List Particle :=
  applyGravityWith ps (List.range ps.length) dt

/-- One iteration of the collision loop body for the (ordered) pair
ij = (i, j): overlap test, degenerate-distance guard, elastic impulse along
the contact normal, and positional overlap correction
(main.cpp lines 137-162). -/
noncomputable def resolvePair (ps : List Particle) (ij : ℕ × ℕ) : List Particle :=
  let p1 := getP ps ij.1
  let p2 := getP ps ij.2
  let diff : Vec2 := p2.pos - p1.pos
  let distSq := dot diff diff
  let rSum := getRadius p1.mass + getRadius p2.mass
  if distSq < rSum * rSum then
    let dist := Real.sqrt distSq
    if dist < 0.0001 then ps
    else
      let n : Vec2 := dist⁻¹ • diff
      let v1 := dot p1.vel n
      let v2 := dot p2.vel n
      let m1 := p1.mass
      let m2 := p2.mass
      let v1New := (v1 * (m1 - m2) + 2 * m2 * v2) / (m1 + m2)
      let v2New := (v2 * (m2 - m1) + 2 * m1 * v1) / (m1 + m2)
      let penetration := rSum - dist
      let correction : Vec2 := (penetration / 2) • n
      let q1 := { p1 with vel := p1.vel + (v1New - v1) • n, pos := p1.pos - correction }
      let q2 := { p2 with vel := p2.vel + (v2New - v2) • n, pos := p2.pos + correction }
      (ps.set ij.1 q1).set ij.2 q2
  else ps

/-- The ascending pair order of the collision double loop:
(0,1), (0,2), ..., (0,n-1), (1,2), ... (main.cpp lines 135-136). -/
def pairList (n : ℕ) : List (ℕ × ℕ) :=
  (List.range n).flatMap fun i =>
    ((List.range n).filter fun j => decide (i < j)).map fun j => (i, j)

/-- The collision detection and resolution pass: the pairs are processed
sequentially in ascending order, each seeing the mutations of the previous
ones (main.cpp lines 134-164). -/
noncomputable def collisionPass (ps : List Particle) : List Particle :=
  (pairList ps.length).foldl resolvePair ps

/-- Position integration: p.pos += p.vel * dt (main.cpp lines 166-169). -/
noncomputable def integratePositions (ps : List Particle) (dt : ℝ) : List Particle :=
  ps.map fun p => { p with pos := p.pos + dt • p.vel }

/-- One full physics step of the frame loop: gravity pass, collision pass,
position integration (main.cpp lines 114-169). -/
noncomputable def step (ps : List Particle) (dt : ℝ) : List Particle :=
  integratePositions (collisionPass (applyGravity ps dt)) dt

/-- The collision-detection test of main.cpp line 141 (distSq < rSum * rSum)
for the single pair (0, 1) of a two-particle system. -/
def overlapTest (ps : List Particle) : Prop :=
  dot ((getP ps 1).pos - (getP ps 0).pos) ((getP ps 1).pos - (getP ps 0).pos) <
    (getRadius (getP ps 0).mass + getRadius (getP ps 1).mass) *
      (getRadius (getP ps 0).mass + getRadius (getP ps 1).mass)

end GravitySim

namespace GravitySim

/-! ### Basic evaluation lemmas -/

@[simp] theorem getP_cons_zero (a : Particle) (l : List Particle) : getP (a :: l) 0 = a := rfl

@[simp] theorem getP_cons_succ (a : Particle) (l : List Particle) (k : ℕ) :
    getP (a :: l) (k + 1) = getP l k := rfl

theorem pairList_two : pairList 2 = [(0, 1)] := by rfl

theorem collisionPass_pair (p q : Particle) :
    collisionPass [p, q] = resolvePair [p, q] (0, 1) := by
  show (pairList 2).foldl resolvePair [p, q] = _
  rw [pairList_two]
  rfl

theorem applyGravity_pair (p q : Particle) (dt : ℝ) :
    applyGravity [p, q] dt =
      [{ p with vel := p.vel + dt • gravAccContrib p q },
       { q with vel := q.vel + dt • gravAccContrib q p }] := by
  simp [applyGravity, applyGravityWith, gravAccWith, List.range_succ, getP, List.getD]

end GravitySim

namespace GravitySim

/-! ### Dot-product algebra -/

theorem dot_self_nonneg (a : Vec2) : 0 ≤ dot a a := by
  have h1 := sq_nonneg a.1
  have h2 := sq_nonneg a.2
  simp only [dot]
  nlinarith

theorem dot_smul_right (r : ℝ) (a b : Vec2) : dot a (r • b) = r * dot a b := by
  simp only [dot, Prod.smul_fst, Prod.smul_snd, smul_eq_mul]
  ring

theorem dot_smul_left (r : ℝ) (a b : Vec2) : dot (r • a) b = r * dot a b := by
  simp only [dot, Prod.smul_fst, Prod.smul_snd, smul_eq_mul]
  ring

theorem dot_add_left (a b c : Vec2) : dot (a + b) c = dot a c + dot b c := by
  simp only [dot, Prod.fst_add, Prod.snd_add]
  ring

/-! ### Collision branch lemmas -/

theorem resolvePair_miss (ps : List Particle) (ij : ℕ × ℕ)
    (h : ¬ dot ((getP ps ij.2).pos - (getP ps ij.1).pos)
            ((getP ps ij.2).pos - (getP ps ij.1).pos) <
          (getRadius (getP ps ij.1).mass + getRadius (getP ps ij.2).mass) *
            (getRadius (getP ps ij.1).mass + getRadius (getP ps ij.2).mass)) :
    resolvePair ps ij = ps := by
  simp only [resolvePair]
  rw [if_neg h]

theorem resolvePair_guard (ps : List Particle) (ij : ℕ × ℕ)
    (h : Real.sqrt (dot ((getP ps ij.2).pos - (getP ps ij.1).pos)
            ((getP ps ij.2).pos - (getP ps ij.1).pos)) < 0.0001) :
    resolvePair ps ij = ps := by
  simp only [resolvePair]
  by_cases houter : dot ((getP ps ij.2).pos - (getP ps ij.1).pos)
      ((getP ps ij.2).pos - (getP ps ij.1).pos) <
    (getRadius (getP ps ij.1).mass + getRadius (getP ps ij.2).mass) *
      (getRadius (getP ps ij.1).mass + getRadius (getP ps ij.2).mass)
  · rw [if_pos houter, if_pos h]
  · rw [if_neg houter]

theorem resolvePair_pair_hit (p q : Particle) (dist : ℝ) (nrm : Vec2)
    (v1 v2 v1N v2N pen : ℝ)
    (hdist : dist = Real.sqrt (dot (q.pos - p.pos) (q.pos - p.pos)))
    (hnrm : nrm = dist⁻¹ • (q.pos - p.pos))
    (hv1 : v1 = dot p.vel nrm) (hv2 : v2 = dot q.vel nrm)
    (hv1N : v1N = (v1 * (p.mass - q.mass) + 2 * q.mass * v2) / (p.mass + q.mass))
    (hv2N : v2N = (v2 * (q.mass - p.mass) + 2 * p.mass * v1) / (p.mass + q.mass))
    (hpen : pen = (getRadius p.mass + getRadius q.mass) - dist)
    (h1 : dot (q.pos - p.pos) (q.pos - p.pos) <
          (getRadius p.mass + getRadius q.mass) * (getRadius p.mass + getRadius q.mass))
    (h2 : ¬ dist < 0.0001) :
    resolvePair [p, q] (0, 1) =
      [⟨p.pos - (pen / 2) • nrm, p.vel + (v1N - v1) • nrm, p.mass⟩,
       ⟨q.pos + (pen / 2) • nrm, q.vel + (v2N - v2) • nrm, q.mass⟩] := by
  subst hnrm hv1 hv2 hv1N hv2N hpen hdist
  simp only [resolvePair, getP_cons_zero, getP_cons_succ]
  rw [if_pos]
  · rw [if_neg]
    · rfl
    · exact h2
  · exact h1

end GravitySim

namespace GravitySim

theorem dot_add_smul_self (v : Vec2) (c : ℝ) (w : Vec2) :
    dot (v + c • w) (v + c • w) =
      dot v v + 2 * c * dot v w + c ^ 2 * dot w w := by
  simp only [dot, Prod.fst_add, Prod.snd_add, Prod.smul_fst, Prod.smul_snd, smul_eq_mul]
  ring

theorem smul_add_smul_smul (m : ℝ) (v : Vec2) (c : ℝ) (w : Vec2) :
    m • (v + c • w) = m • v + (m * c) • w := by
  rw [smul_add, smul_smul]

/-- The abstract momentum identity behind the elastic impulse update:
for any contact normal and any projected speeds, the impulse transfers
momentum between the two bodies without changing the total. -/
theorem elastic_momentum_update (m1 m2 : ℝ) (hm : m1 + m2 ≠ 0)
    (u1 u2 nv : Vec2) (v1 v2 : ℝ) :
    m1 • (u1 + ((v1 * (m1 - m2) + 2 * m2 * v2) / (m1 + m2) - v1) • nv) +
      m2 • (u2 + ((v2 * (m2 - m1) + 2 * m1 * v1) / (m1 + m2) - v2) • nv) =
      m1 • u1 + m2 • u2 := by
  rw [smul_add_smul_smul, smul_add_smul_smul]
  have key : m1 * ((v1 * (m1 - m2) + 2 * m2 * v2) / (m1 + m2) - v1) +
      m2 * ((v2 * (m2 - m1) + 2 * m1 * v1) / (m1 + m2) - v2) = 0 := by
    field_simp
    ring
  calc m1 • u1 + (m1 * ((v1 * (m1 - m2) + 2 * m2 * v2) / (m1 + m2) - v1)) • nv +
        (m2 • u2 + (m2 * ((v2 * (m2 - m1) + 2 * m1 * v1) / (m1 + m2) - v2)) • nv)
      = m1 • u1 + m2 • u2 +
        (m1 * ((v1 * (m1 - m2) + 2 * m2 * v2) / (m1 + m2) - v1) +
          m2 * ((v2 * (m2 - m1) + 2 * m1 * v1) / (m1 + m2) - v2)) • nv := by
        rw [add_smul]; abel
    _ = m1 • u1 + m2 • u2 := by rw [key, zero_smul, add_zero]

/-- C2: for an isolated two-particle collision resolution step, the total
vector momentum m1 * vel1 + m2 * vel2 is unchanged (exactly, over ℝ). -/
theorem collision_momentum_conserved (p q : Particle)
    (hp : 0 < p.mass) (hq : 0 < q.mass) :
    (getP (collisionPass [p, q]) 0).mass • (getP (collisionPass [p, q]) 0).vel +
      (getP (collisionPass [p, q]) 1).mass • (getP (collisionPass [p, q]) 1).vel =
      p.mass • p.vel + q.mass • q.vel := by
  rw [collisionPass_pair]
  by_cases h1 : dot (q.pos - p.pos) (q.pos - p.pos) <
      (getRadius p.mass + getRadius q.mass) * (getRadius p.mass + getRadius q.mass)
  · by_cases h2 : Real.sqrt (dot (q.pos - p.pos) (q.pos - p.pos)) < 0.0001
    · rw [resolvePair_guard [p, q] (0, 1) (by simpa using h2)]
      simp
    · rw [resolvePair_pair_hit p q _ _ _ _ _ _ _ rfl rfl rfl rfl rfl rfl rfl h1 h2]
      simp only [getP_cons_zero, getP_cons_succ]
      have hm : p.mass + q.mass ≠ 0 := by positivity
      exact elastic_momentum_update p.mass q.mass hm p.vel q.vel _ _ _
  · rw [resolvePair_miss [p, q] (0, 1) (by simpa using h1)]
    simp

end GravitySim

namespace GravitySim

/-- A normalized vector diff / sqrt(dot diff diff) has unit dot square. -/
theorem dot_normalize_self (x : Vec2) (hd : Real.sqrt (dot x x) ≠ 0) :
    dot ((Real.sqrt (dot x x))⁻¹ • x) ((Real.sqrt (dot x x))⁻¹ • x) = 1 := by
  rw [dot_smul_left, dot_smul_right]
  rw [show dot x x = Real.sqrt (dot x x) * Real.sqrt (dot x x) from
    (Real.mul_self_sqrt (dot_self_nonneg x)).symm]
  field_simp

/-- The abstract kinetic-energy identity behind the elastic impulse update:
along a unit contact normal, the 1D elastic formula leaves the total
kinetic energy unchanged. -/
theorem elastic_energy_update (m1 m2 : ℝ) (hm : m1 + m2 ≠ 0)
    (u1 u2 nv : Vec2) (hn : dot nv nv = 1) :
    1 / 2 * m1 *
        dot (u1 + ((dot u1 nv * (m1 - m2) + 2 * m2 * dot u2 nv) / (m1 + m2) - dot u1 nv) • nv)
            (u1 + ((dot u1 nv * (m1 - m2) + 2 * m2 * dot u2 nv) / (m1 + m2) - dot u1 nv) • nv) +
      1 / 2 * m2 *
        dot (u2 + ((dot u2 nv * (m2 - m1) + 2 * m1 * dot u1 nv) / (m1 + m2) - dot u2 nv) • nv)
            (u2 + ((dot u2 nv * (m2 - m1) + 2 * m1 * dot u1 nv) / (m1 + m2) - dot u2 nv) • nv) =
      1 / 2 * m1 * dot u1 u1 + 1 / 2 * m2 * dot u2 u2 := by
  rw [dot_add_smul_self, dot_add_smul_self, hn]
  field_simp
  ring

/-- C3: for an isolated two-particle collision resolution step, the total
kinetic energy (1/2) m1 |vel1|^2 + (1/2) m2 |vel2|^2 is unchanged
(exactly, over ℝ). -/
theorem collision_kinetic_energy_conserved (p q : Particle)
    (hp : 0 < p.mass) (hq : 0 < q.mass) :
    1 / 2 * (getP (collisionPass [p, q]) 0).mass *
        dot (getP (collisionPass [p, q]) 0).vel (getP (collisionPass [p, q]) 0).vel +
      1 / 2 * (getP (collisionPass [p, q]) 1).mass *
        dot (getP (collisionPass [p, q]) 1).vel (getP (collisionPass [p, q]) 1).vel =
      1 / 2 * p.mass * dot p.vel p.vel + 1 / 2 * q.mass * dot q.vel q.vel := by
  rw [collisionPass_pair]
  by_cases h1 : dot (q.pos - p.pos) (q.pos - p.pos) <
      (getRadius p.mass + getRadius q.mass) * (getRadius p.mass + getRadius q.mass)
  · by_cases h2 : Real.sqrt (dot (q.pos - p.pos) (q.pos - p.pos)) < 0.0001
    · rw [resolvePair_guard [p, q] (0, 1) (by simpa using h2)]
      simp
    · rw [resolvePair_pair_hit p q _ _ _ _ _ _ _ rfl rfl rfl rfl rfl rfl rfl h1 h2]
      simp only [getP_cons_zero, getP_cons_succ]
      have hm : p.mass + q.mass ≠ 0 := by positivity
      have hd : Real.sqrt (dot (q.pos - p.pos) (q.pos - p.pos)) ≠ 0 := by
        have hge : (0.0001 : ℝ) ≤ Real.sqrt (dot (q.pos - p.pos) (q.pos - p.pos)) :=
          not_lt.mp h2
        intro h0
        rw [h0] at hge
        norm_num at hge
      exact elastic_energy_update p.mass q.mass hm p.vel q.vel _
        (dot_normalize_self (q.pos - p.pos) hd)
  · rw [resolvePair_miss [p, q] (0, 1) (by simpa using h1)]
    simp

end GravitySim

namespace GravitySim

theorem sub_add_smul_shift (a b nv : Vec2) (c : ℝ) :
    (b + c • nv) - (a - c • nv) = (b - a) + (c + c) • nv := by
  rw [add_smul]
  abel

/-- C5: in a two-particle system, a pair detected as overlapping (with the
degenerate-distance guard not triggering) is pushed apart so that after the
collision pass the center distance equals exactly the sum of the radii
(hence the overlap is fully resolved, not worsened). -/
theorem collision_overlap_resolved (p q : Particle)
    (hp : 0 < p.mass) (hq : 0 < q.mass)
    (h1 : dot (q.pos - p.pos) (q.pos - p.pos) <
      (getRadius p.mass + getRadius q.mass) * (getRadius p.mass + getRadius q.mass))
    (h2 : ¬ Real.sqrt (dot (q.pos - p.pos) (q.pos - p.pos)) < 0.0001) :
    Real.sqrt (dot
        ((getP (collisionPass [p, q]) 1).pos - (getP (collisionPass [p, q]) 0).pos)
        ((getP (collisionPass [p, q]) 1).pos - (getP (collisionPass [p, q]) 0).pos)) =
      getRadius p.mass + getRadius q.mass := by
  rw [collisionPass_pair]
  rw [resolvePair_pair_hit p q _ _ _ _ _ _ _ rfl rfl rfl rfl rfl rfl rfl h1 h2]
  simp only [getP_cons_zero, getP_cons_succ]
  have hd : Real.sqrt (dot (q.pos - p.pos) (q.pos - p.pos)) ≠ 0 := by
    have hge : (0.0001 : ℝ) ≤ Real.sqrt (dot (q.pos - p.pos) (q.pos - p.pos)) := not_lt.mp h2
    intro h0
    rw [h0] at hge
    norm_num at hge
  have hr : 0 ≤ getRadius p.mass + getRadius q.mass := by
    have h1r : 0 < getRadius p.mass := mul_pos hp (by norm_num [RADIUS_SCALE])
    have h2r : 0 < getRadius q.mass := mul_pos hq (by norm_num [RADIUS_SCALE])
    linarith
  rw [sub_add_smul_shift]
  generalize hg : q.pos - p.pos = x at hd ⊢
  generalize hs : Real.sqrt (dot x x) = s at hd ⊢
  have hss : dot x x = s * s := by
    rw [← hs]
    exact (Real.mul_self_sqrt (dot_self_nonneg x)).symm
  rw [dot_add_smul_self, dot_smul_right, dot_smul_left, dot_smul_right, hss]
  rw [show s * s +
      2 * ((getRadius p.mass + getRadius q.mass - s) / 2 +
        (getRadius p.mass + getRadius q.mass - s) / 2) * (s⁻¹ * (s * s)) +
      ((getRadius p.mass + getRadius q.mass - s) / 2 +
        (getRadius p.mass + getRadius q.mass - s) / 2) ^ 2 * (s⁻¹ * (s⁻¹ * (s * s))) =
      (getRadius p.mass + getRadius q.mass) ^ 2 by field_simp; ring]
  exact Real.sqrt_sq hr

end GravitySim

namespace GravitySim

theorem collision_momentum_conserved_witness :
    (0 : ℝ) < 1 ∧ (0 : ℝ) < 1 ∧
    (getP (collisionPass [⟨(0, 0), (1, 0), 1⟩, ⟨(0.01, 0), (-1, 0), 1⟩]) 0).mass •
        (getP (collisionPass [⟨(0, 0), (1, 0), 1⟩, ⟨(0.01, 0), (-1, 0), 1⟩]) 0).vel +
      (getP (collisionPass [⟨(0, 0), (1, 0), 1⟩, ⟨(0.01, 0), (-1, 0), 1⟩]) 1).mass •
        (getP (collisionPass [⟨(0, 0), (1, 0), 1⟩, ⟨(0.01, 0), (-1, 0), 1⟩]) 1).vel =
      (1 : ℝ) • (((1 : ℝ), (0 : ℝ)) : Vec2) + (1 : ℝ) • (((-1 : ℝ), (0 : ℝ)) : Vec2) :=
  ⟨by norm_num, by norm_num,
    collision_momentum_conserved ⟨(0, 0), (1, 0), 1⟩ ⟨(0.01, 0), (-1, 0), 1⟩
      (by norm_num) (by norm_num)⟩

theorem collision_kinetic_energy_conserved_witness :
    (0 : ℝ) < 1 ∧ (0 : ℝ) < 1 ∧
    1 / 2 * (getP (collisionPass [⟨(0, 0), (1, 0), 1⟩, ⟨(0.01, 0), (-1, 0), 1⟩]) 0).mass *
        dot (getP (collisionPass [⟨(0, 0), (1, 0), 1⟩, ⟨(0.01, 0), (-1, 0), 1⟩]) 0).vel
          (getP (collisionPass [⟨(0, 0), (1, 0), 1⟩, ⟨(0.01, 0), (-1, 0), 1⟩]) 0).vel +
      1 / 2 * (getP (collisionPass [⟨(0, 0), (1, 0), 1⟩, ⟨(0.01, 0), (-1, 0), 1⟩]) 1).mass *
        dot (getP (collisionPass [⟨(0, 0), (1, 0), 1⟩, ⟨(0.01, 0), (-1, 0), 1⟩]) 1).vel
          (getP (collisionPass [⟨(0, 0), (1, 0), 1⟩, ⟨(0.01, 0), (-1, 0), 1⟩]) 1).vel =
      1 / 2 * (1 : ℝ) * dot (((1 : ℝ), (0 : ℝ)) : Vec2) (((1 : ℝ), (0 : ℝ)) : Vec2) +
        1 / 2 * (1 : ℝ) * dot (((-1 : ℝ), (0 : ℝ)) : Vec2) (((-1 : ℝ), (0 : ℝ)) : Vec2) :=
  ⟨by norm_num, by norm_num,
    collision_kinetic_energy_conserved ⟨(0, 0), (1, 0), 1⟩ ⟨(0.01, 0), (-1, 0), 1⟩
      (by norm_num) (by norm_num)⟩

theorem collision_overlap_resolved_witness :
    (0 : ℝ) < 1 ∧ (0 : ℝ) < 1 ∧
    dot ((((0.01 : ℝ), (0 : ℝ)) : Vec2) - (((0 : ℝ), (0 : ℝ)) : Vec2))
        ((((0.01 : ℝ), (0 : ℝ)) : Vec2) - (((0 : ℝ), (0 : ℝ)) : Vec2)) <
      (getRadius 1 + getRadius 1) * (getRadius 1 + getRadius 1) ∧
    ¬ Real.sqrt (dot ((((0.01 : ℝ), (0 : ℝ)) : Vec2) - (((0 : ℝ), (0 : ℝ)) : Vec2))
        ((((0.01 : ℝ), (0 : ℝ)) : Vec2) - (((0 : ℝ), (0 : ℝ)) : Vec2))) < 0.0001 ∧
    Real.sqrt (dot
        ((getP (collisionPass [⟨(0, 0), (1, 0), 1⟩, ⟨(0.01, 0), (-1, 0), 1⟩]) 1).pos -
          (getP (collisionPass [⟨(0, 0), (1, 0), 1⟩, ⟨(0.01, 0), (-1, 0), 1⟩]) 0).pos)
        ((getP (collisionPass [⟨(0, 0), (1, 0), 1⟩, ⟨(0.01, 0), (-1, 0), 1⟩]) 1).pos -
          (getP (collisionPass [⟨(0, 0), (1, 0), 1⟩, ⟨(0.01, 0), (-1, 0), 1⟩]) 0).pos)) =
      getRadius 1 + getRadius 1 := by
  have hdot : dot ((((0.01 : ℝ), (0 : ℝ)) : Vec2) - (((0 : ℝ), (0 : ℝ)) : Vec2))
      ((((0.01 : ℝ), (0 : ℝ)) : Vec2) - (((0 : ℝ), (0 : ℝ)) : Vec2)) = 0.0001 := by
    norm_num [dot, Prod.mk_sub_mk]
  have h1c : dot ((((0.01 : ℝ), (0 : ℝ)) : Vec2) - (((0 : ℝ), (0 : ℝ)) : Vec2))
      ((((0.01 : ℝ), (0 : ℝ)) : Vec2) - (((0 : ℝ), (0 : ℝ)) : Vec2)) <
      (getRadius 1 + getRadius 1) * (getRadius 1 + getRadius 1) := by
    rw [hdot]
    norm_num [getRadius, RADIUS_SCALE]
  have h2c : ¬ Real.sqrt (dot ((((0.01 : ℝ), (0 : ℝ)) : Vec2) - (((0 : ℝ), (0 : ℝ)) : Vec2))
      ((((0.01 : ℝ), (0 : ℝ)) : Vec2) - (((0 : ℝ), (0 : ℝ)) : Vec2))) < 0.0001 := by
    rw [hdot, show (0.0001 : ℝ) = 0.01 ^ 2 by norm_num,
      Real.sqrt_sq (by norm_num : (0 : ℝ) ≤ 0.01)]
    norm_num
  exact ⟨by norm_num, by norm_num, h1c, h2c,
    collision_overlap_resolved ⟨(0, 0), (1, 0), 1⟩ ⟨(0.01, 0), (-1, 0), 1⟩
      (by norm_num) (by norm_num) h1c h2c⟩

end GravitySim

namespace GravitySim

/-! ### Index/length bookkeeping -/

theorem getP_set (ps : List Particle) (a : Particle) (i k : ℕ) :
    getP (ps.set i a) k = if i = k ∧ i < ps.length then a else getP ps k := by
  by_cases hk : k < ps.length
  · rw [getP, getP, List.getD_eq_getElem _ _ (by simpa using hk),
      List.getD_eq_getElem _ _ hk, List.getElem_set]
    by_cases hik : i = k
    · subst hik
      rw [if_pos rfl, if_pos ⟨rfl, hk⟩]
    · rw [if_neg hik, if_neg (fun hand => hik hand.1)]
  · rw [getP, getP, List.getD_eq_default _ _ (by simpa using not_lt.mp hk),
      List.getD_eq_default _ _ (not_lt.mp hk)]
    rw [if_neg]
    rintro ⟨rfl, hlt⟩
    exact hk hlt

theorem getP_map_range (f : ℕ → Particle) (n k : ℕ) :
    getP ((List.range n).map f) k = if k < n then f k else default := by
  by_cases hk : k < n
  · rw [if_pos hk, getP, List.getD_eq_getElem _ _ (by simpa using hk)]
    simp
  · rw [if_neg hk, getP, List.getD_eq_default]
    simpa using not_lt.mp hk

theorem applyGravityWith_length (ps : List Particle) (order : List ℕ) (dt : ℝ) :
    (applyGravityWith ps order dt).length = ps.length := by
  simp [applyGravityWith]

theorem resolvePair_length (ps : List Particle) (ij : ℕ × ℕ) :
    (resolvePair ps ij).length = ps.length := by
  simp only [resolvePair]
  split
  · split
    · rfl
    · simp
  · rfl

theorem foldl_resolvePair_length (l : List (ℕ × ℕ)) (ps : List Particle) :
    (l.foldl resolvePair ps).length = ps.length := by
  induction l generalizing ps with
  | nil => rfl
  | cons a t ih => rw [List.foldl_cons, ih, resolvePair_length]

theorem collisionPass_length (ps : List Particle) :
    (collisionPass ps).length = ps.length := foldl_resolvePair_length _ ps

theorem integratePositions_length (ps : List Particle) (dt : ℝ) :
    (integratePositions ps dt).length = ps.length := by
  simp [integratePositions]

theorem step_length (ps : List Particle) (dt : ℝ) :
    (step ps dt).length = ps.length := by
  rw [step, integratePositions_length, collisionPass_length]
  exact applyGravityWith_length ps _ dt

/-! ### Mass preservation -/

theorem getP_mass_applyGravityWith (ps : List Particle) (order : List ℕ) (dt : ℝ) (k : ℕ) :
    (getP (applyGravityWith ps order dt) k).mass = (getP ps k).mass := by
  rw [applyGravityWith, getP_map_range]
  by_cases hk : k < ps.length
  · rw [if_pos hk]
  · rw [if_neg hk, getP, List.getD_eq_default _ _ (not_lt.mp hk)]

theorem resolvePair_mass (ps : List Particle) (ij : ℕ × ℕ) (k : ℕ) :
    (getP (resolvePair ps ij) k).mass = (getP ps k).mass := by
  simp only [resolvePair]
  split
  · split
    · rfl
    · rw [getP_set, getP_set]
      split
      · rename_i hand
        rw [hand.1]
      · split
        · rename_i hand
          rw [hand.1]
        · rfl
  · rfl

theorem foldl_resolvePair_mass (l : List (ℕ × ℕ)) (ps : List Particle) (k : ℕ) :
    (getP (l.foldl resolvePair ps) k).mass = (getP ps k).mass := by
  induction l generalizing ps with
  | nil => rfl
  | cons a t ih => rw [List.foldl_cons, ih, resolvePair_mass]

theorem getP_mass_integratePositions (ps : List Particle) (dt : ℝ) (k : ℕ) :
    (getP (integratePositions ps dt) k).mass = (getP ps k).mass := by
  by_cases hk : k < ps.length
  · rw [integratePositions, getP, getP, List.getD_eq_getElem _ _ (by simpa using hk),
      List.getD_eq_getElem _ _ hk, List.getElem_map]
  · rw [integratePositions, getP, getP, List.getD_eq_default _ _ (by simpa using not_lt.mp hk),
      List.getD_eq_default _ _ (not_lt.mp hk)]

/-- C8: one full physics step never changes the number of particles nor any
particle's mass; only positions and velocities are mutated. -/
theorem step_preserves_count_and_masses (ps : List Particle) (dt : ℝ) :
    (step ps dt).length = ps.length ∧
      ∀ k, (getP (step ps dt) k).mass = (getP ps k).mass := by
  refine ⟨step_length ps dt, fun k => ?_⟩
  rw [step, getP_mass_integratePositions]
  show (getP ((pairList (applyGravity ps dt).length).foldl resolvePair (applyGravity ps dt)) k).mass
    = (getP ps k).mass
  rw [foldl_resolvePair_mass]
  exact getP_mass_applyGravityWith ps _ dt k

end GravitySim

namespace GravitySim

/-! ### The gravity accumulation as an order-independent sum -/

theorem foldl_skip_add (g : ℕ → Vec2) (i : ℕ) (l : List ℕ) (z : Vec2) :
    l.foldl (fun a j => if j = i then a else a + g j) z =
      z + (l.map fun j => if j = i then 0 else g j).sum := by
  induction l generalizing z with
  | nil => simp
  | cons a t ih =>
    rw [List.foldl_cons, List.map_cons, List.sum_cons]
    by_cases ha : a = i
    · rw [if_pos ha, if_pos ha, zero_add, ih]
    · rw [if_neg ha, if_neg ha, ih, add_assoc]

theorem list_sum_map_range (g : ℕ → Vec2) (n : ℕ) :
    ((List.range n).map g).sum = ∑ j ∈ Finset.range n, g j := by
  induction n with
  | zero => simp
  | succ m ih =>
    rw [List.range_succ, List.map_append, List.sum_append, ih, Finset.sum_range_succ]
    simp

theorem gravAccWith_perm (ps : List Particle) (order : List ℕ) (i : ℕ)
    (hperm : order.Perm (List.range ps.length)) :
    gravAccWith ps order i =
      ∑ j ∈ Finset.range ps.length,
        if j = i then 0 else gravAccContrib (getP ps i) (getP ps j) := by
  rw [gravAccWith, foldl_skip_add, zero_add,
    (hperm.map fun j => if j = i then 0 else gravAccContrib (getP ps i) (getP ps j)).sum_eq,
    list_sum_map_range]

/-- C6: the gravity pass computes every acceleration from the pre-update
snapshot and only then updates velocities; for any permutation of the inner
loop order the resulting particle is the same, given by an order-independent
Finset sum over the original positions and masses. -/
theorem gravity_pass_snapshot_order_independent (ps : List Particle) (dt : ℝ)
    (order : List ℕ) (hperm : order.Perm (List.range ps.length)) (i : ℕ)
    (hi : i < ps.length) :
    getP (applyGravityWith ps order dt) i =
      { getP ps i with
        vel := (getP ps i).vel + dt •
          ∑ j ∈ Finset.range ps.length,
            if j = i then 0 else gravAccContrib (getP ps i) (getP ps j) } := by
  rw [applyGravityWith, getP_map_range, if_pos hi, gravAccWith_perm ps order i hperm]

theorem gravity_pass_snapshot_order_independent_witness :
    (([1, 0] : List ℕ).Perm (List.range 2)) ∧ 0 < 2 ∧
    getP (applyGravityWith [⟨(0, 0), (0, 0), 1⟩, ⟨(0.5, 0), (0, 0), 1⟩] [1, 0] 1) 0 =
      { getP [(⟨(0, 0), (0, 0), 1⟩ : Particle), ⟨(0.5, 0), (0, 0), 1⟩] 0 with
        vel := (getP [(⟨(0, 0), (0, 0), 1⟩ : Particle), ⟨(0.5, 0), (0, 0), 1⟩] 0).vel + (1 : ℝ) •
          ∑ j ∈ Finset.range 2,
            if j = 0 then 0 else
              gravAccContrib (getP [(⟨(0, 0), (0, 0), 1⟩ : Particle), ⟨(0.5, 0), (0, 0), 1⟩] 0)
                (getP [(⟨(0, 0), (0, 0), 1⟩ : Particle), ⟨(0.5, 0), (0, 0), 1⟩] j) } :=
  ⟨by decide, by norm_num,
    gravity_pass_snapshot_order_independent
      [⟨(0, 0), (0, 0), 1⟩, ⟨(0.5, 0), (0, 0), 1⟩] 1 [1, 0] (by decide) 0 (by norm_num)⟩

end GravitySim

namespace GravitySim

theorem dot_neg_neg (x : Vec2) : dot (-x) (-x) = dot x x := by
  simp only [dot, Prod.fst_neg, Prod.snd_neg]
  ring

theorem grav_scalar_symm (ma mb c s : ℝ) :
    ma * (G * ma * mb / c / ma * s) = mb * (G * mb * ma / c / mb * s) := by
  by_cases ha : ma = 0
  · subst ha
    simp
  · by_cases hb : mb = 0
    · subst hb
      simp
    · rw [show ma * (G * ma * mb / c / ma * s) = ma * ma⁻¹ * (G * ma * mb / c * s) by ring,
        show mb * (G * mb * ma / c / mb * s) = mb * mb⁻¹ * (G * mb * ma / c * s) by ring,
        mul_inv_cancel₀ ha, mul_inv_cancel₀ hb, one_mul, one_mul]
      ring

/-- Newton's third law holds for the mass-weighted acceleration
contributions, even though the code does not exploit it structurally. -/
theorem mass_smul_gravAccContrib_antisymm (a b : Particle) :
    a.mass • gravAccContrib a b = -(b.mass • gravAccContrib b a) := by
  simp only [gravAccContrib, smul_smul]
  rw [show a.pos - b.pos = -(b.pos - a.pos) from (neg_sub b.pos a.pos).symm]
  rw [dot_neg_neg, smul_neg, neg_neg]
  congr 1
  exact grav_scalar_symm a.mass b.mass _ _

/-- C9: the gravity pass alone conserves total vector momentum exactly,
for any particle count: sum of mass[i] * vel[i] is unchanged. -/
theorem gravity_pass_momentum_conserved (ps : List Particle) (dt : ℝ) :
    ∑ i ∈ Finset.range ps.length,
        (getP ps i).mass • (getP (applyGravity ps dt) i).vel =
      ∑ i ∈ Finset.range ps.length, (getP ps i).mass • (getP ps i).vel := by
  have hterm : ∀ i ∈ Finset.range ps.length,
      (getP ps i).mass • (getP (applyGravity ps dt) i).vel =
        (getP ps i).mass • (getP ps i).vel +
          dt • ∑ j ∈ Finset.range ps.length,
            (if j = i then (0 : Vec2)
             else (getP ps i).mass • gravAccContrib (getP ps i) (getP ps j)) := by
    intro i hi
    rw [Finset.mem_range] at hi
    rw [applyGravity, applyGravityWith, getP_map_range, if_pos hi,
      gravAccWith_perm ps _ i (List.Perm.refl _)]
    show (getP ps i).mass • ((getP ps i).vel + dt • _) = _
    rw [smul_add, smul_comm (getP ps i).mass dt, Finset.smul_sum]
    congr 1
    congr 1
    apply Finset.sum_congr rfl
    intro j _
    by_cases hj : j = i
    · rw [if_pos hj, if_pos hj, smul_zero]
    · rw [if_neg hj, if_neg hj]
  rw [Finset.sum_congr rfl hterm, Finset.sum_add_distrib]
  have hzero : ∑ i ∈ Finset.range ps.length, ∑ j ∈ Finset.range ps.length,
      (if j = i then (0 : Vec2)
       else (getP ps i).mass • gravAccContrib (getP ps i) (getP ps j)) = 0 := by
    have hanti : ∀ i j : ℕ,
        (if j = i then (0 : Vec2)
         else (getP ps i).mass • gravAccContrib (getP ps i) (getP ps j)) =
        -(if i = j then (0 : Vec2)
          else (getP ps j).mass • gravAccContrib (getP ps j) (getP ps i)) := by
      intro i j
      by_cases hj : j = i
      · subst hj
        simp
      · rw [if_neg hj, if_neg (fun hh => hj hh.symm)]
        exact mass_smul_gravAccContrib_antisymm (getP ps i) (getP ps j)
    have hS : (∑ i ∈ Finset.range ps.length, ∑ j ∈ Finset.range ps.length,
        (if j = i then (0 : Vec2)
         else (getP ps i).mass • gravAccContrib (getP ps i) (getP ps j))) =
        -(∑ i ∈ Finset.range ps.length, ∑ j ∈ Finset.range ps.length,
          (if j = i then (0 : Vec2)
           else (getP ps i).mass • gravAccContrib (getP ps i) (getP ps j))) := by
      calc ∑ i ∈ Finset.range ps.length, ∑ j ∈ Finset.range ps.length,
            (if j = i then (0 : Vec2)
             else (getP ps i).mass • gravAccContrib (getP ps i) (getP ps j))
          = ∑ j ∈ Finset.range ps.length, ∑ i ∈ Finset.range ps.length,
            (if j = i then (0 : Vec2)
             else (getP ps i).mass • gravAccContrib (getP ps i) (getP ps j)) :=
            Finset.sum_comm
        _ = ∑ j ∈ Finset.range ps.length, ∑ i ∈ Finset.range ps.length,
            -(if i = j then (0 : Vec2)
              else (getP ps j).mass • gravAccContrib (getP ps j) (getP ps i)) := by
            apply Finset.sum_congr rfl
            intro j _
            apply Finset.sum_congr rfl
            intro i _
            exact hanti i j
        _ = -(∑ j ∈ Finset.range ps.length, ∑ i ∈ Finset.range ps.length,
            (if i = j then (0 : Vec2)
             else (getP ps j).mass • gravAccContrib (getP ps j) (getP ps i))) := by
            rw [← Finset.sum_neg_distrib]
            apply Finset.sum_congr rfl
            intro j _
            rw [Finset.sum_neg_distrib]
    have hadd := eq_neg_iff_add_eq_zero.mp hS
    rw [← two_smul ℝ] at hadd
    exact (smul_eq_zero.mp hadd).resolve_left (by norm_num)
  rw [← Finset.smul_sum, hzero, smul_zero, add_zero]

end GravitySim

namespace GravitySim

/-- C4: two particles at identical positions produce well-defined (finite
real) results after one full step: the softened gravity denominator is
strictly positive, the dist < 1e-4 guard skips the collision pair, the
gravity contribution degenerates to the zero vector, and the step reduces
to plain position integration. -/
theorem degenerate_positions_step (p q : Particle) (dt : ℝ)
    (hpos : q.pos = p.pos) (hp : 0 < p.mass) (hq : 0 < q.mass) (hdt : 0 < dt) :
    step [p, q] dt =
      [{ p with pos := p.pos + dt • p.vel }, { q with pos := q.pos + dt • q.vel }] ∧
    Real.sqrt (dot (q.pos - p.pos) (q.pos - p.pos)) < 0.0001 ∧
    0 < dot (q.pos - p.pos) (q.pos - p.pos) + SOFTENING := by
  have hz : q.pos - p.pos = 0 := by rw [hpos, sub_self]
  have hz' : p.pos - q.pos = 0 := by rw [hpos, sub_self]
  have hdot0 : dot (q.pos - p.pos) (q.pos - p.pos) = 0 := by
    rw [hz]
    simp [dot]
  have hguard : Real.sqrt (dot (q.pos - p.pos) (q.pos - p.pos)) < 0.0001 := by
    rw [hdot0, Real.sqrt_zero]
    norm_num
  refine ⟨?_, hguard, by rw [hdot0]; norm_num [SOFTENING]⟩
  have hc1 : gravAccContrib p q = 0 := by
    simp [gravAccContrib, hz]
  have hc2 : gravAccContrib q p = 0 := by
    simp [gravAccContrib, hz']
  show integratePositions (collisionPass (applyGravity [p, q] dt)) dt = _
  rw [applyGravity_pair, hc1, hc2, smul_zero, add_zero, add_zero]
  have e1 : ({ p with vel := p.vel } : Particle) = p := rfl
  have e2 : ({ q with vel := q.vel } : Particle) = q := rfl
  rw [e1, e2, collisionPass_pair, resolvePair_guard [p, q] (0, 1) (by simpa using hguard)]
  simp [integratePositions]

theorem degenerate_positions_step_witness :
    ((0.3, 0.4) : Vec2) = ((0.3, 0.4) : Vec2) ∧ (0 : ℝ) < 1.5 ∧ (0 : ℝ) < 2 ∧
    (0 : ℝ) < 0.016 ∧
    (step [⟨(0.3, 0.4), (1, 2), 1.5⟩, ⟨(0.3, 0.4), (-1, 0), 2⟩] 0.016 =
      [⟨((0.3, 0.4) : Vec2) + (0.016 : ℝ) • ((1, 2) : Vec2), (1, 2), 1.5⟩,
       ⟨((0.3, 0.4) : Vec2) + (0.016 : ℝ) • ((-1, 0) : Vec2), (-1, 0), 2⟩] ∧
     Real.sqrt (dot (((0.3, 0.4) : Vec2) - ((0.3, 0.4) : Vec2))
        (((0.3, 0.4) : Vec2) - ((0.3, 0.4) : Vec2))) < 0.0001 ∧
     0 < dot (((0.3, 0.4) : Vec2) - ((0.3, 0.4) : Vec2))
        (((0.3, 0.4) : Vec2) - ((0.3, 0.4) : Vec2)) + SOFTENING) :=
  ⟨rfl, by norm_num, by norm_num, by norm_num,
    degenerate_positions_step ⟨(0.3, 0.4), (1, 2), 1.5⟩ ⟨(0.3, 0.4), (-1, 0), 2⟩ 0.016
      rfl (by norm_num) (by norm_num) (by norm_num)⟩

end GravitySim

namespace GravitySim

theorem gravAccContrib_mirror (u v : Vec2) (m : ℝ) :
    gravAccContrib ⟨-u, -v, m⟩ ⟨u, v, m⟩ = -gravAccContrib ⟨u, v, m⟩ ⟨-u, -v, m⟩ := by
  simp only [gravAccContrib]
  rw [show (u : Vec2) - -u = -(-u - u) by abel]
  rw [dot_neg_neg, smul_neg, smul_neg]

/-- One step preserves the mirror-symmetric shape of a two-particle state
when the collision test does not fire. -/
theorem step_mirror (u v : Vec2) (m dt : ℝ)
    (hnc : ¬ overlapTest [⟨u, v, m⟩, ⟨-u, -v, m⟩]) :
    ∃ w z : Vec2, step [⟨u, v, m⟩, ⟨-u, -v, m⟩] dt = [⟨w, z, m⟩, ⟨-w, -z, m⟩] := by
  refine ⟨u + dt • (v + dt • gravAccContrib ⟨u, v, m⟩ ⟨-u, -v, m⟩),
    v + dt • gravAccContrib ⟨u, v, m⟩ ⟨-u, -v, m⟩, ?_⟩
  show integratePositions (collisionPass (applyGravity _ dt)) dt = _
  rw [applyGravity_pair, gravAccContrib_mirror]
  have hvel2 : (-v : Vec2) + dt • -gravAccContrib ⟨u, v, m⟩ ⟨-u, -v, m⟩ =
      -(v + dt • gravAccContrib ⟨u, v, m⟩ ⟨-u, -v, m⟩) := by
    rw [smul_neg]
    abel
  rw [hvel2, collisionPass_pair, resolvePair_miss _ _ (by simpa [overlapTest] using hnc)]
  have hpos2 : (-u : Vec2) + dt • -(v + dt • gravAccContrib ⟨u, v, m⟩ ⟨-u, -v, m⟩) =
      -(u + dt • (v + dt • gravAccContrib ⟨u, v, m⟩ ⟨-u, -v, m⟩)) := by
    rw [smul_neg]
    abel
  simp only [integratePositions, List.map_cons, List.map_nil]
  rw [hpos2]

/-- Mirror symmetry is preserved along every iterate, as long as the
collision test never fires. -/
theorem iterate_mirror (m dt : ℝ) (N : ℕ) :
    ∀ u v : Vec2,
      (∀ k < N, ¬ overlapTest ((fun s => step s dt)^[k] [⟨u, v, m⟩, ⟨-u, -v, m⟩])) →
      ∃ w z : Vec2,
        (fun s => step s dt)^[N] [⟨u, v, m⟩, ⟨-u, -v, m⟩] = [⟨w, z, m⟩, ⟨-w, -z, m⟩] := by
  induction N with
  | zero => exact fun u v _ => ⟨u, v, rfl⟩
  | succ n ih =>
    intro u v hnc
    simp only [Function.iterate_succ_apply]
    obtain ⟨w, z, hw⟩ := step_mirror u v m dt (by simpa using hnc 0 (Nat.succ_pos n))
    rw [hw]
    apply ih w z
    intro k hk
    have hthis := hnc (k + 1) (Nat.succ_lt_succ hk)
    simp only [Function.iterate_succ_apply] at hthis
    rw [hw] at hthis
    exact hthis

/-- C7: two equal masses placed symmetrically about the origin with zero
initial velocity stay mirror images (in position and velocity) after every
physics step, as long as no collision fires. -/
theorem symmetric_two_body_mirrors (u : Vec2) (m dt : ℝ) (hm : 0 < m) (N : ℕ)
    (hnc : ∀ k < N, ¬ overlapTest ((fun s => step s dt)^[k] [⟨u, 0, m⟩, ⟨-u, -0, m⟩])) :
    (getP ((fun s => step s dt)^[N] [⟨u, 0, m⟩, ⟨-u, -0, m⟩]) 0).pos =
      -(getP ((fun s => step s dt)^[N] [⟨u, 0, m⟩, ⟨-u, -0, m⟩]) 1).pos ∧
    (getP ((fun s => step s dt)^[N] [⟨u, 0, m⟩, ⟨-u, -0, m⟩]) 0).vel =
      -(getP ((fun s => step s dt)^[N] [⟨u, 0, m⟩, ⟨-u, -0, m⟩]) 1).vel := by
  obtain ⟨w, z, hw⟩ := iterate_mirror m dt N u 0 hnc
  rw [hw]
  constructor
  · show w = -(-w)
    rw [neg_neg]
  · show z = -(-z)
    rw [neg_neg]

end GravitySim

namespace GravitySim

theorem symmetric_two_body_mirrors_witness :
    (0 : ℝ) < 1 ∧
    (∀ k < 1, ¬ overlapTest
      ((fun s => step s 0.016)^[k]
        [⟨(((0.5 : ℝ), (0 : ℝ)) : Vec2), 0, 1⟩, ⟨-(((0.5 : ℝ), (0 : ℝ)) : Vec2), -0, 1⟩])) ∧
    ((getP ((fun s => step s 0.016)^[1]
        [⟨(((0.5 : ℝ), (0 : ℝ)) : Vec2), 0, 1⟩, ⟨-(((0.5 : ℝ), (0 : ℝ)) : Vec2), -0, 1⟩]) 0).pos =
      -(getP ((fun s => step s 0.016)^[1]
        [⟨(((0.5 : ℝ), (0 : ℝ)) : Vec2), 0, 1⟩, ⟨-(((0.5 : ℝ), (0 : ℝ)) : Vec2), -0, 1⟩]) 1).pos ∧
    (getP ((fun s => step s 0.016)^[1]
        [⟨(((0.5 : ℝ), (0 : ℝ)) : Vec2), 0, 1⟩, ⟨-(((0.5 : ℝ), (0 : ℝ)) : Vec2), -0, 1⟩]) 0).vel =
      -(getP ((fun s => step s 0.016)^[1]
        [⟨(((0.5 : ℝ), (0 : ℝ)) : Vec2), 0, 1⟩, ⟨-(((0.5 : ℝ), (0 : ℝ)) : Vec2), -0, 1⟩]) 1).vel) := by
  have hnc : ∀ k < 1, ¬ overlapTest
      ((fun s => step s 0.016)^[k]
        [⟨(((0.5 : ℝ), (0 : ℝ)) : Vec2), 0, 1⟩, ⟨-(((0.5 : ℝ), (0 : ℝ)) : Vec2), -0, 1⟩]) := by
    intro k hk
    have hk0 : k = 0 := by omega
    subst hk0
    norm_num [overlapTest, getRadius, RADIUS_SCALE, dot, Prod.mk_sub_mk]
  exact ⟨by norm_num, hnc,
    symmetric_two_body_mirrors (((0.5 : ℝ), (0 : ℝ)) : Vec2) 1 0.016 (by norm_num) 1 hnc⟩

end GravitySim

namespace GravitySim

theorem map_getP_range (ps : List Particle) :
    (List.range ps.length).map (fun i => getP ps i) = ps := by
  apply List.ext_getElem
  · simp
  · intro i h1 h2
    simp [getP, List.getElem?_eq_getElem h2]

theorem applyGravity_zero (ps : List Particle) : applyGravity ps 0 = ps := by
  rw [applyGravity, applyGravityWith]
  have h : ∀ i ∈ List.range ps.length,
      ({ getP ps i with
        vel := (getP ps i).vel + (0 : ℝ) • gravAccWith ps (List.range ps.length) i } :
          Particle) = getP ps i := by
    intro i _
    simp
  rw [List.map_congr_left h, map_getP_range]

theorem integratePositions_zero (ps : List Particle) : integratePositions ps 0 = ps := by
  rw [integratePositions]
  have h : ∀ p ∈ ps, ({ p with pos := p.pos + (0 : ℝ) • p.vel } : Particle) = p := by
    intro p _
    simp
  rw [List.map_congr_left h]
  simp

end GravitySim

namespace GravitySim

/-- C10: with dt = 0 the gravity pass and the position integration are
identities, so a step is exactly the collision pass; an overlapping pair
still receives the impulse and the positional correction, so velocities and
positions change even though no time has elapsed. -/
theorem zero_dt_step_still_collides :
    (∀ ps : List Particle, step ps 0 = collisionPass ps) ∧
    step [⟨(0, 0), (1, 0), 1⟩, ⟨(0.01, 0), (-1, 0), 1⟩] 0 =
      [⟨(-0.015, 0), (-1, 0), 1⟩, ⟨(0.025, 0), (1, 0), 1⟩] ∧
    (getP (step [⟨(0, 0), (1, 0), 1⟩, ⟨(0.01, 0), (-1, 0), 1⟩] 0) 0).vel ≠
      ((1 : ℝ), (0 : ℝ)) ∧
    (getP (step [⟨(0, 0), (1, 0), 1⟩, ⟨(0.01, 0), (-1, 0), 1⟩] 0) 0).pos ≠
      ((0 : ℝ), (0 : ℝ)) := by
  have hgen : ∀ ps : List Particle, step ps 0 = collisionPass ps := by
    intro ps
    rw [step, applyGravity_zero, integratePositions_zero]
  have hsq : Real.sqrt (dot
      ((⟨(0.01, 0), (-1, 0), 1⟩ : Particle).pos - (⟨(0, 0), (1, 0), 1⟩ : Particle).pos)
      ((⟨(0.01, 0), (-1, 0), 1⟩ : Particle).pos - (⟨(0, 0), (1, 0), 1⟩ : Particle).pos)) =
      0.01 := by
    rw [show dot
        ((⟨(0.01, 0), (-1, 0), 1⟩ : Particle).pos - (⟨(0, 0), (1, 0), 1⟩ : Particle).pos)
        ((⟨(0.01, 0), (-1, 0), 1⟩ : Particle).pos - (⟨(0, 0), (1, 0), 1⟩ : Particle).pos) =
        (0.0001 : ℝ) by norm_num [dot, Prod.mk_sub_mk]]
    rw [show (0.0001 : ℝ) = 0.01 ^ 2 by norm_num]
    exact Real.sqrt_sq (by norm_num)
  have hval : step [⟨(0, 0), (1, 0), 1⟩, ⟨(0.01, 0), (-1, 0), 1⟩] 0 =
      [⟨(-0.015, 0), (-1, 0), 1⟩, ⟨(0.025, 0), (1, 0), 1⟩] := by
    rw [hgen, collisionPass_pair]
    rw [resolvePair_pair_hit ⟨(0, 0), (1, 0), 1⟩ ⟨(0.01, 0), (-1, 0), 1⟩
      0.01 (1, 0) 1 (-1) (-1) 1 0.03
      hsq.symm
      (by norm_num [Prod.smul_mk, Prod.mk_sub_mk])
      (by norm_num [dot])
      (by norm_num [dot])
      (by norm_num)
      (by norm_num)
      (by norm_num [getRadius, RADIUS_SCALE])
      (by norm_num [dot, Prod.mk_sub_mk, getRadius, RADIUS_SCALE])
      (by norm_num)]
    norm_num [Prod.smul_mk, Prod.mk_sub_mk, Prod.mk_add_mk]
  refine ⟨hgen, hval, ?_, ?_⟩
  · rw [hval]
    simp only [getP_cons_zero]
    intro hcontra
    rw [Prod.mk.injEq] at hcontra
    norm_num at hcontra
  · rw [hval]
    simp only [getP_cons_zero]
    intro hcontra
    rw [Prod.mk.injEq] at hcontra
    norm_num at hcontra

end GravitySim

namespace GravitySim

theorem sqrt_eval_005 : Real.sqrt 0.05 = Real.sqrt 5 / 10 := by
  rw [show (0.05 : ℝ) = (Real.sqrt 5 / 10) ^ 2 by
    rw [div_pow, Real.sq_sqrt (by norm_num : (0 : ℝ) ≤ 5)]
    norm_num]
  exact Real.sqrt_sq (by positivity)

theorem gravAcc_pair_zero (p q : Particle) : gravAcc [p, q] 0 = gravAccContrib p q := by
  simp [gravAcc, gravAccWith, List.range_succ, getP, List.getD]

theorem gravAcc_pair_one (p q : Particle) : gravAcc [p, q] 1 = gravAccContrib q p := by
  simp [gravAcc, gravAccWith, List.range_succ, getP, List.getD]

theorem c1_contrib_AB :
    gravAccContrib ⟨(-0.1, 0), (0, 0), 1⟩ ⟨(0.1, 0), (0, 0), 1⟩ =
      ((8 * Real.sqrt 5 : ℝ), (0 : ℝ)) := by
  have h5 : Real.sqrt 5 * Real.sqrt 5 = 5 := Real.mul_self_sqrt (by norm_num)
  have h5pos : (0 : ℝ) < Real.sqrt 5 := Real.sqrt_pos.mpr (by norm_num)
  simp only [gravAccContrib]
  rw [show ((⟨(0.1, 0), (0, 0), 1⟩ : Particle).pos - (⟨(-0.1, 0), (0, 0), 1⟩ : Particle).pos) =
      (((0.2 : ℝ), (0 : ℝ)) : Vec2) by norm_num [Prod.mk_sub_mk]]
  rw [show dot (((0.2 : ℝ), (0 : ℝ)) : Vec2) (((0.2 : ℝ), (0 : ℝ)) : Vec2) + SOFTENING =
      (0.05 : ℝ) by norm_num [dot, SOFTENING]]
  rw [sqrt_eval_005, Prod.smul_mk, Prod.smul_mk, Prod.mk.injEq]
  constructor
  · show G * 1 * 1 / 0.05 / 1 * ((Real.sqrt 5 / 10)⁻¹ * 0.2) = 8 * Real.sqrt 5
    rw [inv_div, G]
    rw [show (1 : ℝ) * 1 * 1 / 0.05 / 1 * (10 / Real.sqrt 5 * 0.2) = 40 / Real.sqrt 5 by
      ring]
    rw [div_eq_iff (ne_of_gt h5pos)]
    linear_combination (-8) * h5
  · show G * 1 * 1 / 0.05 / 1 * ((Real.sqrt 5 / 10)⁻¹ * 0) = 0
    ring

theorem c1_contrib_BA :
    gravAccContrib ⟨(0.1, 0), (0, 0), 1⟩ ⟨(-0.1, 0), (0, 0), 1⟩ =
      ((-(8 * Real.sqrt 5) : ℝ), (0 : ℝ)) := by
  have h5 : Real.sqrt 5 * Real.sqrt 5 = 5 := Real.mul_self_sqrt (by norm_num)
  have h5pos : (0 : ℝ) < Real.sqrt 5 := Real.sqrt_pos.mpr (by norm_num)
  simp only [gravAccContrib]
  rw [show ((⟨(-0.1, 0), (0, 0), 1⟩ : Particle).pos - (⟨(0.1, 0), (0, 0), 1⟩ : Particle).pos) =
      (((-0.2 : ℝ), (0 : ℝ)) : Vec2) by norm_num [Prod.mk_sub_mk]]
  rw [show dot (((-0.2 : ℝ), (0 : ℝ)) : Vec2) (((-0.2 : ℝ), (0 : ℝ)) : Vec2) + SOFTENING =
      (0.05 : ℝ) by norm_num [dot, SOFTENING]]
  rw [sqrt_eval_005, Prod.smul_mk, Prod.smul_mk, Prod.mk.injEq]
  constructor
  · show G * 1 * 1 / 0.05 / 1 * ((Real.sqrt 5 / 10)⁻¹ * -0.2) = -(8 * Real.sqrt 5)
    rw [inv_div, G]
    rw [show (1 : ℝ) * 1 * 1 / 0.05 / 1 * (10 / Real.sqrt 5 * -0.2) = -(40 / Real.sqrt 5) by
      ring]
    rw [neg_inj, div_eq_iff (ne_of_gt h5pos)]
    linear_combination (-8) * h5
  · show G * 1 * 1 / 0.05 / 1 * ((Real.sqrt 5 / 10)⁻¹ * 0) = 0
    ring

end GravitySim

namespace GravitySim

theorem c1_step_eval :
    step [⟨(-0.1, 0), (0, 0), 1⟩, ⟨(0.1, 0), (0, 0), 1⟩] 0.016 =
      [⟨(-0.1 + 0.002048 * Real.sqrt 5, 0), (0.128 * Real.sqrt 5, 0), 1⟩,
       ⟨(0.1 - 0.002048 * Real.sqrt 5, 0), (-(0.128 * Real.sqrt 5), 0), 1⟩] := by
  show integratePositions (collisionPass (applyGravity _ 0.016)) 0.016 = _
  rw [applyGravity_pair, c1_contrib_AB, c1_contrib_BA]
  rw [show ((0 : ℝ), (0 : ℝ)) + (0.016 : ℝ) • (((8 * Real.sqrt 5 : ℝ), (0 : ℝ)) : Vec2) =
      (((0.128 * Real.sqrt 5 : ℝ), (0 : ℝ)) : Vec2) by
    rw [Prod.smul_mk, Prod.mk_add_mk, Prod.mk.injEq, smul_eq_mul, smul_eq_mul]
    exact ⟨by ring, by ring⟩]
  rw [show ((0 : ℝ), (0 : ℝ)) + (0.016 : ℝ) • (((-(8 * Real.sqrt 5) : ℝ), (0 : ℝ)) : Vec2) =
      (((-(0.128 * Real.sqrt 5) : ℝ), (0 : ℝ)) : Vec2) by
    rw [Prod.smul_mk, Prod.mk_add_mk, Prod.mk.injEq, smul_eq_mul, smul_eq_mul]
    exact ⟨by ring, by ring⟩]
  rw [collisionPass_pair,
    resolvePair_miss _ _ (by norm_num [dot, getRadius, RADIUS_SCALE, Prod.mk_sub_mk])]
  simp only [integratePositions, List.map_cons, List.map_nil]
  rw [show ((-0.1 : ℝ), (0 : ℝ)) + (0.016 : ℝ) • (((0.128 * Real.sqrt 5 : ℝ), (0 : ℝ)) : Vec2) =
      ((-0.1 + 0.002048 * Real.sqrt 5, 0) : Vec2) by
    rw [Prod.smul_mk, Prod.mk_add_mk, Prod.mk.injEq, smul_eq_mul, smul_eq_mul]
    exact ⟨by ring, by ring⟩]
  rw [show ((0.1 : ℝ), (0 : ℝ)) + (0.016 : ℝ) • (((-(0.128 * Real.sqrt 5) : ℝ), (0 : ℝ)) : Vec2) =
      ((0.1 - 0.002048 * Real.sqrt 5, 0) : Vec2) by
    rw [Prod.smul_mk, Prod.mk_add_mk, Prod.mk.injEq, smul_eq_mul, smul_eq_mul]
    exact ⟨by ring, by ring⟩]

/-- C1 (counterexample to the claim as stated): in the concrete two-particle
scenario the acceleration of particle A is NOT (20, 0) -- the direction
vector diff/dist is not a unit vector because dist includes the softening --
and the resulting x-velocity lies strictly between 0.28 and 0.29, so it is
not approximately 0.32. -/
theorem concrete_two_body_claim_refuted :
    gravAcc [⟨(-0.1, 0), (0, 0), 1⟩, ⟨(0.1, 0), (0, 0), 1⟩] 0 ≠ ((20 : ℝ), (0 : ℝ)) ∧
    0.28 < (getP (step [⟨(-0.1, 0), (0, 0), 1⟩, ⟨(0.1, 0), (0, 0), 1⟩] 0.016) 0).vel.1 ∧
    (getP (step [⟨(-0.1, 0), (0, 0), 1⟩, ⟨(0.1, 0), (0, 0), 1⟩] 0.016) 0).vel.1 < 0.29 := by
  have hub : Real.sqrt 5 < 2.265 := by
    rw [Real.sqrt_lt' (by norm_num : (0 : ℝ) < 2.265)]
    norm_num
  have hlb : (2.1875 : ℝ) < Real.sqrt 5 := by
    rw [Real.lt_sqrt (by norm_num : (0 : ℝ) ≤ 2.1875)]
    norm_num
  refine ⟨?_, ?_, ?_⟩
  · rw [gravAcc_pair_zero, c1_contrib_AB]
    intro hcontra
    rw [Prod.mk.injEq] at hcontra
    have h1 := hcontra.1
    linarith
  · rw [c1_step_eval]
    simp only [getP_cons_zero]
    show (0.28 : ℝ) < 0.128 * Real.sqrt 5
    linarith
  · rw [c1_step_eval]
    simp only [getP_cons_zero]
    show (0.128 : ℝ) * Real.sqrt 5 < 0.29
    linarith

/-- C1 (amended): in the concrete scenario the softened squared distance is
0.05 and the pairwise force magnitude is 20, but the acceleration of A along
x is 8 * sqrt 5 (about 17.89, not 20) because the code divides diff by the
softened distance sqrt(0.05) rather than the true separation; hence
vel_A.x = 0.128 * sqrt 5 (about 0.2862, not 0.32), vel_B.x is its negative,
and positions shift by vel*dt. -/
theorem concrete_two_body_step_amended :
    dot (((0.2 : ℝ), (0 : ℝ)) : Vec2) (((0.2 : ℝ), (0 : ℝ)) : Vec2) + SOFTENING = 0.05 ∧
    G * 1 * 1 / 0.05 = 20 ∧
    gravAcc [⟨(-0.1, 0), (0, 0), 1⟩, ⟨(0.1, 0), (0, 0), 1⟩] 0 =
      ((8 * Real.sqrt 5 : ℝ), (0 : ℝ)) ∧
    gravAcc [⟨(-0.1, 0), (0, 0), 1⟩, ⟨(0.1, 0), (0, 0), 1⟩] 1 =
      ((-(8 * Real.sqrt 5) : ℝ), (0 : ℝ)) ∧
    step [⟨(-0.1, 0), (0, 0), 1⟩, ⟨(0.1, 0), (0, 0), 1⟩] 0.016 =
      [⟨(-0.1 + 0.002048 * Real.sqrt 5, 0), (0.128 * Real.sqrt 5, 0), 1⟩,
       ⟨(0.1 - 0.002048 * Real.sqrt 5, 0), (-(0.128 * Real.sqrt 5), 0), 1⟩] :=
  ⟨by norm_num [dot, SOFTENING], by norm_num [G],
   by rw [gravAcc_pair_zero, c1_contrib_AB],
   by rw [gravAcc_pair_one, c1_contrib_BA],
   c1_step_eval⟩

end GravitySim
